import Mathlib

/-
Verification development for the AWS region ping web UI (main.go).

The core of the program is `streamHandler`: it measures a client reference
ping once, checks that the response writer supports flushing, launches one
goroutine per AWS region, each of which performs 3 sequential HTTP HEAD
probe attempts with a 100ms sleep after a successful attempt, tracks the
minimum successful latency, and sends exactly one `PingResult` per region
on a buffered channel of capacity `len(regions)`; a closer goroutine waits
on a WaitGroup and closes the channel; the handler drains the channel and
writes one server-sent event per result, flushing after each.

Durations are modelled as natural numbers of nanoseconds (a Go
`time.Duration` is an int64 nanosecond count, non-negative here since it
comes from `time.Since`).  `Duration.Milliseconds()` is integer division
by 1e6.  The `float64` conversion in the Go struct is exact for the
integral millisecond counts involved, so latencies are modelled as `Nat`
milliseconds.
-/

namespace AwsPing

/-- Outcome of one probe attempt (`pingRegion` call): elapsed nanoseconds on
success, or a transport error string on failure. -/
inductive Outcome where
  | ok (d : Nat)
  | fail (e : String)
deriving DecidableEq

/-- Observable actions of one region-prober goroutine: a probe attempt
(`pingRegion` call) or the `time.Sleep(100ms)` pause. -/
inductive Action where
  | probe
  | sleep100
deriving DecidableEq

/-- State of the retry loop of one region prober: the trace of actions it
performed, the `minLatency` accumulator and the `lastError` variable
(both as in main.go lines 154-167). -/
structure ProbeState where
  trace : List Action
  minLatency : Nat
  lastError : Option String
deriving DecidableEq

/-- The retry loop `for i := 0; i < 3; i++` of main.go lines 157-167,
generalised over the remaining iteration count `k` and current index `i`.
On a failed attempt the loop records the error and `continue`s, which
skips both the minimum update and the sleep; on a successful attempt it
updates `minLatency` (treating 0 as unset) and then sleeps 100ms. -/
def proberLoop (att : Nat → Outcome) : Nat → Nat → Nat → Option String → ProbeState
  | _, 0, m, le => ⟨[], m, le⟩
  | i, Nat.succ k, m, le =>
    match att i with
    | Outcome.fail e =>
      let s := proberLoop att (i + 1) k m (some e)
      ⟨Action.probe :: s.trace, s.minLatency, s.lastError⟩
    | Outcome.ok d =>
      let m' := if m = 0 ∨ d < m then d else m
      let s := proberLoop att (i + 1) k m' le
      ⟨Action.probe :: Action.sleep100 :: s.trace, s.minLatency, s.lastError⟩

/-- One region prober run: 3 attempts starting at index 0, with
`minLatency` and `lastError` initially zero/nil (main.go lines 154-167). -/
def regionProber (att : Nat → Outcome) : ProbeState :=
  proberLoop att 0 3 0 none

/-- The streamed record (main.go `PingResult`).  `latency` and
`clientPing` are whole-millisecond counts; `error` is `none` when the
JSON field is absent (`omitempty`). -/
structure PingResult where
  region : String
  code : String
  latency : Nat
  clientPing : Nat
  error : Option String
deriving DecidableEq

/-- Construction of the emitted record from the loop state
(main.go lines 169-181): `Latency` is `minLatency.Milliseconds()`
(integer division by 1e6) and `Error` is set exactly when
`minLatency == 0 && lastError != nil`. -/
def mkResult (region code : String) (cp : Nat) (s : ProbeState) : PingResult :=
  { region := region
    code := code
    latency := s.minLatency / 1000000
    clientPing := cp
    error := if s.minLatency = 0 ∧ s.lastError ≠ none then s.lastError else none }

/-- Durations of the successful attempts among the three probe attempts,
in attempt order. -/
def successDurations (att : Nat → Outcome) : List Nat :=
  ([att 0, att 1, att 2]).filterMap fun o =>
    match o with
    | Outcome.ok d => some d
    | Outcome.fail _ => none

/-- Trace fragment following one probe attempt: a 100ms pause after a
successful attempt, nothing after a failed one. -/
def padOf : Outcome → List Action
  | Outcome.ok _ => [Action.sleep100]
  | Outcome.fail _ => []

/-- Whether the trace contains two probe attempts back to back, with no
pause action between them. -/
def adjacentProbes : List Action → Bool
  | Action.probe :: Action.probe :: _ => true
  | _ :: rest => adjacentProbes rest
  | [] => false

/-- One region to probe (an `awsping.AWSRegion` name/code pair). -/
structure Target where
  name : String
  code : String
deriving DecidableEq

/-- Environment of one `streamHandler` request: the request data and the
behaviour of the external collaborators (net.ParseIP, the ICMP socket
operations used by `pingClient`, the Flusher capability of the response
writer, and the outcome of each `Fprintf` to the client).  IP addresses
are abstracted to an opaque numeric value. -/
structure HandlerEnv where
  xff : String
  remoteAddr : String
  flusherOk : Bool
  parseIP : String → Option Nat
  listenOk : Bool
  marshalMsgOk : Bool
  writeOk : Bool
  deadlineOk : Bool
  readOk : Bool
  replyParseOk : Bool
  echoMs : Nat
  writeSucceeds : Nat → Bool

/-- The `pingClient` function (main.go lines 48-114): each step of the
ICMP echo — address parse, socket open, message marshal, packet write,
deadline set, reply read, reply parse — returns 0 on failure, swallowing
the error; when every step succeeds the result is the measured
round-trip time in whole milliseconds. -/
def pingClientM (env : HandlerEnv) (ipStr : String) : Nat :=
  match env.parseIP ipStr with
  | none => 0
  | some _ =>
    if env.listenOk = false then 0
    else if env.marshalMsgOk = false then 0
    else if env.writeOk = false then 0
    else if env.deadlineOk = false then 0
    else if env.readOk = false then 0
    else if env.replyParseOk = false then 0
    else env.echoMs

/-- Characters of a string up to (excluding) its last colon; the whole
string when it has no colon.  Mirrors `strings.LastIndex(ip, ":")`
followed by the slice `ip[:colonIndex]` (main.go lines 123-125). -/
def beforeLastColon : List Char → List Char
  | [] => []
  | ch :: rest =>
    if ':' ∈ rest then ch :: beforeLastColon rest
    else if ch = ':' then []
    else ch :: beforeLastColon rest

/-- The port-stripping of `r.RemoteAddr` in main.go lines 122-125. -/
def stripAfterLastColon (s : String) : String :=
  String.mk (beforeLastColon s.data)

/-- Client address selection (main.go lines 120-126): the
`X-Forwarded-For` header when non-empty, otherwise the remote address
with everything from its last colon removed. -/
def clientIP (env : HandlerEnv) : String :=
  if env.xff = "" then stripAfterLastColon env.remoteAddr else env.xff

/-- Observable actions of the handler, in main-flow order: the single
`pingClient` call, the capability-error response, the launch of one
prober goroutine, and each `Fprintf` write and `Flush` of the drain
loop. -/
inductive HAct where
  | clientPingAct
  | capError
  | launch (i : Nat)
  | writeEvent (r : PingResult)
  | flushEvent
deriving DecidableEq

/-- Result of one `streamHandler` request: the action trace and the list
of `PingResult` values sent on the completion channel, in arrival
order. -/
structure HandlerRun where
  acts : List HAct
  sent : List PingResult
deriving DecidableEq

/-- The `streamHandler` request flow (main.go lines 116-205), with the
goroutine interleaving resolved by `order`, the arrival order of prober
completions on the channel (a permutation of the region indices, by the
channel model below).  `atts i` gives the outcomes of region `i`'s three
probe attempts.  The client ping is measured first (line 127); only then
is the Flusher capability checked (line 135), and on failure the handler
returns with an error response before launching any prober.  Otherwise
one prober per region is launched and the drain loop (lines 193-202)
writes and flushes one event per received result; `json.Marshal` of a
`PingResult` cannot fail, and the error value of `Fprintf`
(`env.writeSucceeds`) is discarded by the source, so the drain never
branches on it. -/
def streamHandlerM (env : HandlerEnv) (atts : Nat → Nat → Outcome)
    (targets : List Target) (order : List Nat) : HandlerRun :=
  let cp := pingClientM env (clientIP env)
  if env.flusherOk = false then
    ⟨[HAct.clientPingAct, HAct.capError], []⟩
  else
    let res := fun i =>
      mkResult (targets.getD i ⟨"", ""⟩).name (targets.getD i ⟨"", ""⟩).code cp
        (regionProber (atts i))
    let completions := order.map res
    ⟨HAct.clientPingAct ::
        ((List.range targets.length).map HAct.launch ++
          completions.flatMap fun r => [HAct.writeEvent r, HAct.flushEvent]),
      completions⟩

/-- State of the completion channel and its synchronisation (main.go
lines 144-191): which of the `n` prober goroutines have performed their
send, which have run their deferred `wg.Done()`, how many results sit
unreceived in the channel buffer, and whether the channel is closed. -/
structure ChanState (n : Nat) where
  sent : Finset (Fin n)
  done : Finset (Fin n)
  buf : Nat
  closed : Bool

/-- Initial channel state: nothing sent, WaitGroup counter at `n`, empty
buffer, channel open. -/
def chanInit (n : Nat) : ChanState n := ⟨∅, ∅, 0, false⟩

/-- Events of the channel system: a prober's send, its deferred
`wg.Done`, the closer goroutine's `close(results)`, and a receive by the
drain loop. -/
inductive ChanEvent (n : Nat) where
  | send (i : Fin n)
  | finish (i : Fin n)
  | closeCh
  | recv

/-- Interleaving semantics of main.go lines 144-191.  The channel is
created with capacity `n = len(regions)` (line 144), so a send proceeds
only when fewer than `n` results are buffered (and the channel is open —
a send on a closed channel would panic).  Each prober sends at most once
(guard `i ∉ s.sent`); its `wg.Done` runs after its send returns.  The
closer goroutine's `wg.Wait()` returns exactly when every prober has run
`Done`, and only then is the channel closed, once.  The drain loop
receives whenever the buffer is non-empty. -/
inductive ChanStep (n : Nat) : ChanEvent n → ChanState n → ChanState n → Prop where
  | send (s : ChanState n) (i : Fin n) (hns : i ∉ s.sent) (hroom : s.buf < n)
      (hop : s.closed = false) :
      ChanStep n (ChanEvent.send i) s ⟨insert i s.sent, s.done, s.buf + 1, s.closed⟩
  | finish (s : ChanState n) (i : Fin n) (hs : i ∈ s.sent) (hnd : i ∉ s.done) :
      ChanStep n (ChanEvent.finish i) s ⟨s.sent, insert i s.done, s.buf, s.closed⟩
  | closeCh (s : ChanState n) (hall : s.done = Finset.univ) (hcl : s.closed = false) :
      ChanStep n ChanEvent.closeCh s ⟨s.sent, s.done, s.buf, true⟩
  | recv (s : ChanState n) (hb : 0 < s.buf) :
      ChanStep n ChanEvent.recv s ⟨s.sent, s.done, s.buf - 1, s.closed⟩

/-- States reachable from the initial channel state by any interleaving
of prober, closer and drain steps. -/
inductive ChanReach (n : Nat) : ChanState n → Prop where
  | init : ChanReach n (chanInit n)
  | step (s s' : ChanState n) (e : ChanEvent n) :
      ChanReach n s → ChanStep n e s s' → ChanReach n s'

/-- Whether a handler action is a write of one streamed event. -/
def isWriteEvent : HAct → Bool
  | HAct.writeEvent _ => true
  | _ => false

/-- Attempt outcomes with a zero-duration success followed by two
failures. -/
def attC1 : Nat → Outcome := fun i =>
  if i = 0 then Outcome.ok 0 else if i = 1 then Outcome.fail "e1" else Outcome.fail "e2"

/-- The spec's own test vector: a failed attempt, then successes of 30ms
and 40ms. -/
def attC1w : Nat → Outcome := fun i =>
  if i = 0 then Outcome.fail "a" else if i = 1 then Outcome.ok 30000000 else Outcome.ok 40000000

/-- Three failing attempts with distinct errors. -/
def attC2w : Nat → Outcome := fun i =>
  if i = 0 then Outcome.fail "e1" else if i = 1 then Outcome.fail "e2" else Outcome.fail "e3"

/-- A failed first attempt followed by two 5ms successes. -/
def attC6 : Nat → Outcome := fun i =>
  if i = 0 then Outcome.fail "refused" else Outcome.ok 5000000

/-- Three successes of half a millisecond each. -/
def attC10w : Nat → Outcome := fun _ => Outcome.ok 500000

/-- All regions succeed on every attempt in 30ms. -/
def attsOk : Nat → Nat → Outcome := fun _ _ => Outcome.ok 30000000

/-- A request environment in which every external operation succeeds:
no forwarding header, a remote address with a port, an address parse
that recognises the bare remote host, a 12ms client echo, a flushing
connection and reliable writes. -/
def baseEnv : HandlerEnv :=
  { xff := ""
    remoteAddr := "203.0.113.7:51412"
    flusherOk := true
    parseIP := fun s => if s = "203.0.113.7" then some 1 else none
    listenOk := true
    marshalMsgOk := true
    writeOk := true
    deadlineOk := true
    readOk := true
    replyParseOk := true
    echoMs := 12
    writeSucceeds := fun _ => true }

/-- The base environment with a connection that cannot flush. -/
def envC3 : HandlerEnv := { baseEnv with flusherOk := false }

/-- The base environment with `Fprintf` failing from the second event
on (the client disconnected after receiving one event). -/
def envC8 : HandlerEnv := { baseEnv with writeSucceeds := fun k => k == 0 }

/-- The base environment with an empty client address that does not
parse as an IP. -/
def envC9 : HandlerEnv := { baseEnv with remoteAddr := "", parseIP := fun _ => none }

/-- Two example targets. -/
def tgs2 : List Target := [⟨"US East", "us-east-1"⟩, ⟨"EU West", "eu-west-1"⟩]

/-- Three example targets. -/
def tgs3 : List Target :=
  [⟨"US East", "us-east-1"⟩, ⟨"EU West", "eu-west-1"⟩, ⟨"AP South", "ap-south-1"⟩]

/-- Channel state for two probers after prober 0 has sent its result:
one buffered item, prober 1 still to send, channel open. -/
def chanS1 : ChanState 2 := ⟨insert 0 ∅, ∅, 1, false⟩

end AwsPing

namespace AwsPing

/-- Helper: mapping a function over the positions of a list recovers the
map over the list itself. -/
theorem map_getD_range {α β : Type} (l : List α) (d : α) (f : α → β) :
    (List.range l.length).map (fun i => f (l.getD i d)) = l.map f := by
  induction l with
  | nil => rfl
  | cons a t ih =>
    rw [List.length_cons, List.range_succ_eq_map, List.map_cons, List.map_map, List.map_cons]
    simp only [Function.comp_def, List.getD_cons_zero, List.getD_cons_succ]
    rw [ih]

/-- Helper: the results sent on the completion channel by a request that
passes the capability check, one per received completion. -/
theorem streamHandlerM_sent_eq (env : HandlerEnv) (atts : Nat → Nat → Outcome)
    (targets : List Target) (order : List Nat) (hf : env.flusherOk = true) :
    (streamHandlerM env atts targets order).sent = order.map (fun i =>
      mkResult (targets.getD i ⟨"", ""⟩).name (targets.getD i ⟨"", ""⟩).code
        (pingClientM env (clientIP env)) (regionProber (atts i))) := by
  simp [streamHandlerM, hf]

/-- Helper: the action trace of a request that passes the capability
check. -/
theorem streamHandlerM_acts_eq (env : HandlerEnv) (atts : Nat → Nat → Outcome)
    (targets : List Target) (order : List Nat) (hf : env.flusherOk = true) :
    (streamHandlerM env atts targets order).acts = HAct.clientPingAct ::
      ((List.range targets.length).map HAct.launch ++
        (order.map fun i =>
          mkResult (targets.getD i ⟨"", ""⟩).name (targets.getD i ⟨"", ""⟩).code
            (pingClientM env (clientIP env)) (regionProber (atts i))).flatMap
          fun r => [HAct.writeEvent r, HAct.flushEvent]) := by
  simp [streamHandlerM, hf]

/-- C1 counterexample: with attempts `[ok 0ns, fail e1, fail e2]` at
least one attempt succeeds, yet the emitted record carries an error,
because the source uses `minLatency == 0` both as the unset sentinel and
as a possible measured value (main.go lines 163, 176). -/
theorem c1_zero_success_counterexample :
    attC1 0 = Outcome.ok 0 ∧
    (mkResult "US East" "us-east-1" 12 (regionProber attC1)).error = some "e2" := by
  exact ⟨rfl, by decide⟩

/-- C1 (amended): for every attempt sequence with at least one success
in which every successful attempt has a strictly positive duration, the
prober's final duration is the minimum over the successful attempts and
the emitted record carries no error. -/
theorem c1_min_over_positive_successes (att : Nat → Outcome) (r c : String) (cp : Nat)
    (hex : successDurations att ≠ [])
    (hpos : ∀ d ∈ successDurations att, 0 < d) :
    (regionProber att).minLatency ∈ successDurations att ∧
    (∀ d ∈ successDurations att, (regionProber att).minLatency ≤ d) ∧
    (mkResult r c cp (regionProber att)).error = none := by
  cases h0 : att 0 <;> cases h1 : att 1 <;> cases h2 : att 2 <;>
    simp only [successDurations, List.filterMap_cons, List.filterMap_nil, regionProber,
      proberLoop, mkResult, h0, h1, h2, List.mem_cons, List.not_mem_nil, ne_eq] at hex hpos ⊢ <;>
    split_ifs <;> simp_all <;> omega

/-- C1 witness: the spec's vector `[fail, ok 30ms, ok 40ms]` yields
minimum 30ms and no error. -/
theorem c1_min_over_positive_successes_witness :
    successDurations attC1w ≠ [] ∧
    (∀ d ∈ successDurations attC1w, 0 < d) ∧
    (regionProber attC1w).minLatency ∈ successDurations attC1w ∧
    (∀ d ∈ successDurations attC1w, (regionProber attC1w).minLatency ≤ d) ∧
    (mkResult "US East" "us-east-1" 12 (regionProber attC1w)).error = none := by
  have h := c1_min_over_positive_successes attC1w "US East" "us-east-1" 12 (by decide) (by decide)
  exact ⟨by decide, by decide, h.1, h.2.1, h.2.2⟩

/-- C2: when all three attempts fail, the emitted record has latency 0
and its error is the third (last) attempt's error — earlier errors are
overwritten (main.go lines 160, 176-177). -/
theorem c2_all_fail_last_error (att : Nat → Outcome) (r c : String) (cp : Nat)
    (e0 e1 e2 : String)
    (h0 : att 0 = Outcome.fail e0) (h1 : att 1 = Outcome.fail e1)
    (h2 : att 2 = Outcome.fail e2) :
    (mkResult r c cp (regionProber att)).latency = 0 ∧
    (mkResult r c cp (regionProber att)).error = some e2 := by
  simp [regionProber, proberLoop, mkResult, h0, h1, h2]

/-- C2 witness: all-failing attempts `[e1, e2, e3]` yield latency 0 and
error e3, not e1. -/
theorem c2_all_fail_last_error_witness :
    attC2w 0 = Outcome.fail "e1" ∧ attC2w 1 = Outcome.fail "e2" ∧
    attC2w 2 = Outcome.fail "e3" ∧
    (mkResult "US East" "us-east-1" 12 (regionProber attC2w)).latency = 0 ∧
    (mkResult "US East" "us-east-1" 12 (regionProber attC2w)).error = some "e3" := by
  have h := c2_all_fail_last_error attC2w "US East" "us-east-1" 12 "e1" "e2" "e3" rfl rfl rfl
  exact ⟨rfl, rfl, rfl, h.1, h.2⟩

/-- C3 counterexample: on a connection that cannot flush, the handler
still performs the Client Reference Ping, because `pingClient` runs at
main.go line 127 and the Flusher capability check only at line 135 — so
the claim that no probing at all happens is false. -/
theorem c3_ping_preceding_capability_check_counterexample :
    envC3.flusherOk = false ∧
    HAct.clientPingAct ∈ (streamHandlerM envC3 attsOk tgs2 [0, 1]).acts := by
  refine ⟨rfl, ?_⟩
  simp [streamHandlerM, envC3, baseEnv]

/-- C3 (amended): on a connection that cannot flush, the handler
responds with a capability error and performs no region probing — no
prober is launched and nothing is sent — but the Client Reference Ping
has already been performed before the capability check. -/
theorem c3_capability_error_skips_region_probing (env : HandlerEnv)
    (atts : Nat → Nat → Outcome) (targets : List Target) (order : List Nat)
    (h : env.flusherOk = false) :
    (streamHandlerM env atts targets order).acts = [HAct.clientPingAct, HAct.capError] ∧
    (streamHandlerM env atts targets order).sent = [] := by
  simp [streamHandlerM, h]

/-- C3 witness: the amended behaviour at the concrete non-flushing
environment. -/
theorem c3_capability_error_skips_region_probing_witness :
    envC3.flusherOk = false ∧
    (streamHandlerM envC3 attsOk tgs2 [0, 1]).acts = [HAct.clientPingAct, HAct.capError] ∧
    (streamHandlerM envC3 attsOk tgs2 [0, 1]).sent = [] := by
  have h := c3_capability_error_skips_region_probing envC3 attsOk tgs2 [0, 1] rfl
  exact ⟨rfl, h.1, h.2⟩

/-- C4: a request that passes the capability check sends exactly one
result per target — the sent results' codes are a permutation of the
input targets' codes — for every attempt behaviour and every arrival
order of the completions. -/
theorem c4_one_measurement_per_target (env : HandlerEnv) (atts : Nat → Nat → Outcome)
    (targets : List Target) (order : List Nat)
    (hf : env.flusherOk = true)
    (hperm : order.Perm (List.range targets.length)) :
    (streamHandlerM env atts targets order).sent.length = targets.length ∧
    ((streamHandlerM env atts targets order).sent.map PingResult.code).Perm
      (targets.map Target.code) := by
  constructor
  · simp [streamHandlerM, hf, hperm.length_eq]
  · rw [streamHandlerM_sent_eq env atts targets order hf, List.map_map]
    have h1 := hperm.map fun i => (targets.getD i ⟨"", ""⟩).code
    have h2 : ((List.range targets.length).map fun i => (targets.getD i ⟨"", ""⟩).code) =
        targets.map Target.code := map_getD_range targets ⟨"", ""⟩ Target.code
    simpa [Function.comp_def, mkResult] using h1.trans (h2 ▸ List.Perm.refl _)

/-- C4 witness: two targets with arrival order reversed still produce
exactly two results whose codes are a permutation of the input codes. -/
theorem c4_one_measurement_per_target_witness :
    baseEnv.flusherOk = true ∧
    List.Perm [1, 0] (List.range tgs2.length) ∧
    (streamHandlerM baseEnv attsOk tgs2 [1, 0]).sent.length = tgs2.length ∧
    ((streamHandlerM baseEnv attsOk tgs2 [1, 0]).sent.map PingResult.code).Perm
      (tgs2.map Target.code) := by
  have h := c4_one_measurement_per_target baseEnv attsOk tgs2 [1, 0] rfl (by decide)
  exact ⟨rfl, by decide, h.1, h.2⟩

end AwsPing

namespace AwsPing

/-- Helper: a finset of `Fin n` missing an element has fewer than `n`
elements. -/
theorem sent_card_lt {n : Nat} {t : Finset (Fin n)} {i : Fin n} (hns : i ∉ t) : t.card < n := by
  by_contra hge
  push_neg at hge
  have hle : t.card ≤ Fintype.card (Fin n) := Finset.card_le_univ t
  rw [Fintype.card_fin] at hle
  have heq : t = Finset.univ := by
    apply Finset.eq_univ_of_card
    rw [Fintype.card_fin]
    exact le_antisymm hle hge
  exact hns (heq ▸ Finset.mem_univ i)

/-- Helper invariant of the completion-channel system: the buffer never
holds more items than probers have sent, a prober runs `wg.Done` only
after its send, and the channel is closed only once every prober has run
`wg.Done`. -/
theorem chan_invariant (n : Nat) (s : ChanState n) (h : ChanReach n s) :
    s.buf + (n - s.sent.card) ≤ n ∧ s.done ⊆ s.sent ∧
    (s.closed = true → s.done = Finset.univ) := by
  induction h with
  | init => simp [chanInit]
  | step t t' e hr hstep ih =>
    obtain ⟨h1, h2, h3⟩ := ih
    cases hstep with
    | send u i hns hroom hop =>
      refine ⟨?_, h2.trans (Finset.subset_insert i t.sent), ?_⟩
      · have hcard : (insert i t.sent).card = t.sent.card + 1 :=
          Finset.card_insert_of_not_mem hns
        have hlt : t.sent.card < n := sent_card_lt hns
        show t.buf + 1 + (n - (insert i t.sent).card) ≤ n
        rw [hcard]
        omega
      · intro hc
        rw [show (⟨insert i t.sent, t.done, t.buf + 1, t.closed⟩ : ChanState n).closed
            = t.closed from rfl, hop] at hc
        exact absurd hc (by simp)
    | finish u i hs hnd =>
      refine ⟨h1, Finset.insert_subset hs h2, ?_⟩
      intro hc
      have := h3 hc
      rw [this]
      exact Finset.insert_eq_self.mpr (Finset.mem_univ i)
    | closeCh u hall hcl =>
      exact ⟨h1, h2, fun _ => hall⟩
    | recv u hb =>
      refine ⟨?_, h2, h3⟩
      show t.buf - 1 + (n - t.sent.card) ≤ n
      omega

/-- C5: in every reachable state of the completion-channel system with
capacity `n` equal to the prober count, a prober that has not yet sent
finds the buffer below capacity and the channel open (so its single send
completes without blocking and never hits a closed channel); the channel
is closed only after all `n` sends; and from a closed state no further
send step and no second close step is possible. -/
theorem c5_completion_channel_safety (n : Nat) (s : ChanState n) (h : ChanReach n s) :
    (∀ i : Fin n, i ∉ s.sent → s.buf < n ∧ s.closed = false) ∧
    (s.closed = true → s.sent = Finset.univ) ∧
    (s.closed = true →
      (∀ (i : Fin n) (s' : ChanState n), ¬ ChanStep n (ChanEvent.send i) s s') ∧
      (∀ s' : ChanState n, ¬ ChanStep n ChanEvent.closeCh s s')) := by
  obtain ⟨h1, h2, h3⟩ := chan_invariant n s h
  refine ⟨?_, ?_, ?_⟩
  · intro i hi
    refine ⟨?_, ?_⟩
    · have := sent_card_lt hi
      omega
    · cases hc : s.closed with
      | false => rfl
      | true =>
        have hd := h3 hc
        have : s.sent = Finset.univ := Finset.univ_subset_iff.mp (hd ▸ h2)
        exact absurd (this ▸ Finset.mem_univ i) hi
  · intro hc
    exact Finset.univ_subset_iff.mp ((h3 hc) ▸ h2)
  · intro hc
    constructor
    · intro i s' hstep
      cases hstep
      simp_all
    · intro s' hstep
      cases hstep
      simp_all

/-- C5 witness: after prober 0's send in a 2-prober system, the state is
reachable, prober 1 has not sent, and it finds room and an open
channel. -/
theorem c5_completion_channel_safety_witness :
    ChanReach 2 chanS1 ∧ (1 : Fin 2) ∉ chanS1.sent ∧
    chanS1.buf < 2 ∧ chanS1.closed = false := by
  have hstep : ChanStep 2 (ChanEvent.send 0) (chanInit 2) chanS1 :=
    ChanStep.send (chanInit 2) 0 (by simp [chanInit]) (by decide) rfl
  have hreach : ChanReach 2 chanS1 :=
    ChanReach.step (chanInit 2) chanS1 (ChanEvent.send 0) ChanReach.init hstep
  have hni : (1 : Fin 2) ∉ chanS1.sent := by decide
  exact ⟨hreach, hni, (c5_completion_channel_safety 2 chanS1 hreach).1 1 hni⟩

/-- C6 counterexample: with attempts `[fail, ok, ok]` the trace begins
with two probe attempts back to back — the `continue` on a failed
attempt (main.go line 161) skips the 100ms sleep, so there is no pause
between a failed attempt and the next one. -/
theorem c6_missing_pause_counterexample :
    (regionProber attC6).trace =
      [Action.probe, Action.probe, Action.sleep100, Action.probe, Action.sleep100] ∧
    adjacentProbes (regionProber attC6).trace = true := by
  exact ⟨by decide, by decide⟩

/-- C6 (amended): every prober run performs exactly 3 probe attempts in
sequence, and a 100ms pause follows each successful attempt (including
the third) while no pause follows a failed attempt. -/
theorem c6_three_attempts_pause_after_success (att : Nat → Outcome) :
    (regionProber att).trace =
      Action.probe ::
        (padOf (att 0) ++ Action.probe :: (padOf (att 1) ++ Action.probe :: padOf (att 2))) ∧
    (regionProber att).trace.count Action.probe = 3 := by
  cases h0 : att 0 <;> cases h1 : att 1 <;> cases h2 : att 2 <;>
    simp [regionProber, proberLoop, padOf, h0, h1, h2, List.count_cons]

/-- C7: in a request that passes the capability check, the client ping
action occurs exactly once and first, and every result sent carries the
single captured client-ping value unchanged. -/
theorem c7_client_ping_once_everywhere (env : HandlerEnv) (atts : Nat → Nat → Outcome)
    (targets : List Target) (order : List Nat)
    (hf : env.flusherOk = true) :
    (streamHandlerM env atts targets order).acts.count HAct.clientPingAct = 1 ∧
    (streamHandlerM env atts targets order).acts.head? = some HAct.clientPingAct ∧
    ∀ r ∈ (streamHandlerM env atts targets order).sent,
      r.clientPing = pingClientM env (clientIP env) := by
  have key : ∀ (l1 : List Nat) (l2 : List PingResult),
      ((l1.map HAct.launch ++ l2.flatMap fun r =>
        [HAct.writeEvent r, HAct.flushEvent])).count HAct.clientPingAct = 0 := by
    intro l1 l2
    rw [List.count_eq_zero]
    simp
  refine ⟨?_, ?_, ?_⟩
  · rw [streamHandlerM_acts_eq env atts targets order hf, List.count_cons_self, key]
  · rw [streamHandlerM_acts_eq env atts targets order hf]
    rfl
  · intro r hr
    rw [streamHandlerM_sent_eq env atts targets order hf, List.mem_map] at hr
    obtain ⟨i, _, hi⟩ := hr
    rw [← hi]
    rfl

/-- C7 witness: with the base environment and two targets, the client
ping is measured once (12ms), first, and both streamed results carry
it. -/
theorem c7_client_ping_once_everywhere_witness :
    baseEnv.flusherOk = true ∧
    pingClientM baseEnv (clientIP baseEnv) = 12 ∧
    (streamHandlerM baseEnv attsOk tgs2 [0, 1]).acts.count HAct.clientPingAct = 1 ∧
    (streamHandlerM baseEnv attsOk tgs2 [0, 1]).acts.head? = some HAct.clientPingAct ∧
    ∀ r ∈ (streamHandlerM baseEnv attsOk tgs2 [0, 1]).sent,
      r.clientPing = pingClientM baseEnv (clientIP baseEnv) := by
  have h := c7_client_ping_once_everywhere baseEnv attsOk tgs2 [0, 1] rfl
  exact ⟨rfl, by decide, h.1, h.2.1, h.2.2⟩

/-- C8: the code at the failing input of the claim — a client that stops
reading after the first of three events, so `Fprintf` fails from the
second event on.  The drain loop discards the `Fprintf` error and
`Flush` reports none (main.go lines 199-200), so the handler still
attempts a write and a flush for all three completions rather than
stopping. -/
theorem c8_drain_continues_after_failed_write :
    envC8.writeSucceeds 1 = false ∧
    (streamHandlerM envC8 attsOk tgs3 [0, 1, 2]).acts.countP isWriteEvent = 3 ∧
    (streamHandlerM envC8 attsOk tgs3 [0, 1, 2]).acts.count HAct.flushEvent = 3 := by
  refine ⟨rfl, ?_, ?_⟩ <;> decide

/-- C9: whenever the selected client address does not parse as an IP,
`pingClient` returns 0 without any error value, and the request still
sends one result per target, each carrying client ping 0. -/
theorem c9_unparseable_address_zero_ping (env : HandlerEnv) (atts : Nat → Nat → Outcome)
    (targets : List Target) (order : List Nat)
    (hp : env.parseIP (clientIP env) = none)
    (hf : env.flusherOk = true)
    (hperm : order.Perm (List.range targets.length)) :
    pingClientM env (clientIP env) = 0 ∧
    (streamHandlerM env atts targets order).sent.length = targets.length ∧
    ∀ r ∈ (streamHandlerM env atts targets order).sent, r.clientPing = 0 := by
  have h0 : pingClientM env (clientIP env) = 0 := by
    simp [pingClientM, hp]
  refine ⟨h0, ?_, ?_⟩
  · simp [streamHandlerM, hf, hperm.length_eq]
  · intro r hr
    rw [streamHandlerM_sent_eq env atts targets order hf, List.mem_map] at hr
    obtain ⟨i, _, hi⟩ := hr
    rw [← hi, show (mkResult (targets.getD i ⟨"", ""⟩).name (targets.getD i ⟨"", ""⟩).code
      (pingClientM env (clientIP env)) (regionProber (atts i))).clientPing
        = pingClientM env (clientIP env) from rfl, h0]

/-- C9 witness: the empty client address does not parse, the client ping
degrades to 0, and both targets are still measured and carry client
ping 0. -/
theorem c9_unparseable_address_zero_ping_witness :
    clientIP envC9 = "" ∧
    envC9.parseIP (clientIP envC9) = none ∧
    pingClientM envC9 (clientIP envC9) = 0 ∧
    (streamHandlerM envC9 attsOk tgs2 [0, 1]).sent.length = tgs2.length ∧
    ∀ r ∈ (streamHandlerM envC9 attsOk tgs2 [0, 1]).sent, r.clientPing = 0 := by
  have h := c9_unparseable_address_zero_ping envC9 attsOk tgs2 [0, 1] rfl rfl (by decide)
  exact ⟨rfl, rfl, h.1, h.2.1, h.2.2⟩

/-- C10: the emitted latency is the minimum duration integer-divided by
1e6 (whole milliseconds, truncated), so any measured minimum strictly
below one millisecond is emitted as latency 0 — the same value used when
no attempt succeeded. -/
theorem c10_latency_truncated_milliseconds (att : Nat → Outcome) (r c : String) (cp : Nat) :
    (mkResult r c cp (regionProber att)).latency = (regionProber att).minLatency / 1000000 ∧
    ((regionProber att).minLatency < 1000000 →
      (mkResult r c cp (regionProber att)).latency = 0) := by
  refine ⟨rfl, fun h => ?_⟩
  simp [mkResult, Nat.div_eq_of_lt h]

/-- C10 witness: three successful half-millisecond attempts give a
positive measured minimum of 500000ns yet an emitted latency of 0. -/
theorem c10_latency_truncated_milliseconds_witness :
    (regionProber attC10w).minLatency = 500000 ∧
    (regionProber attC10w).minLatency < 1000000 ∧
    (mkResult "US East" "us-east-1" 12 (regionProber attC10w)).latency = 0 := by
  have h := c10_latency_truncated_milliseconds attC10w "US East" "us-east-1" 12
  exact ⟨by decide, by decide, h.2 (by decide)⟩

end AwsPing
